import Mathlib

/-!
Shallow embedding of the metadata core of `src/src/async_fuse/memfs/s3_metadata.rs`
(the `S3MetaData` implementation of the `MetaData` trait).

The KV store is modelled as a partial map from inode numbers to inode records;
a committed transaction is the sequence of its staged writes applied in order.
Directory contents (`BTreeMap<String, DirEntry>` in the source) are modelled as
the map's ordered entry list: an association list sorted strictly by key.
Methods of `S3Node` whose bodies are not part of the given sources are modelled
from the spec and carry a doc comment saying so.
-/

namespace S3FS

/-- The node kinds accepted by the filesystem (`nix::sys::stat::SFlag` values
used by the source: regular file, directory, symlink). -/
inductive SFlag where
  | S_IFREG
  | S_IFDIR
  | S_IFLNK
deriving DecidableEq, Repr

/-- The attribute block of an inode (`fs_util::FileAttr`): the fields the
embedded operations read. `perm` is the mode bits. -/
structure FileAttr where
  ino : Nat
  size : Nat
  perm : Nat
  uid : Nat
  gid : Nat
  kind : SFlag
deriving DecidableEq, Repr

/-- A directory entry (`super::dir::DirEntry`): its name together with the
shared handle to the child's attribute block (`file_attr_arc_ref`), modelled
by value. -/
structure DirEntry where
  entry_name : String
  attr : FileAttr
deriving DecidableEq, Repr

/-- `DirEntry::ino` reads the inode number through the shared attribute block. -/
def DirEntry.ino (e : DirEntry) : Nat := e.attr.ino

/-- `DirEntry::entry_type` reads the kind through the shared attribute block. -/
def DirEntry.entry_type (e : DirEntry) : SFlag := e.attr.kind

/-- Directory contents: the ordered entry list of the source's
`BTreeMap<String, DirEntry>` (sorted strictly by name). -/
abbrev Dir := List (String × DirEntry)

/-- `BTreeMap::get` on the ordered entry list. -/
def dirGet : Dir → String → Option DirEntry
  | [], _ => none
  | p :: rest, k => if p.1 = k then some p.2 else dirGet rest k

/-- `BTreeMap::remove` on the ordered entry list. -/
def dirRemove : Dir → String → Dir
  | [], _ => []
  | p :: rest, k => if p.1 = k then dirRemove rest k else p :: dirRemove rest k

/-- `BTreeMap::insert` on the ordered entry list: replace an existing binding
in place, otherwise insert at the sorted position. -/
def dirInsert : Dir → String → DirEntry → Dir
  | [], k, v => [(k, v)]
  | p :: rest, k, v =>
    if p.1 = k then (k, v) :: rest
    else if k < p.1 then (k, v) :: p :: rest
    else p :: dirInsert rest k v

/-- The representation invariant of a `BTreeMap`'s entry list: keys strictly
increasing. -/
def DirSorted (d : Dir) : Prop := List.Pairwise (fun p q => p.1 < q.1) d

instance (d : Dir) : Decidable (DirSorted d) :=
  inferInstanceAs (Decidable (List.Pairwise (fun p q : String × DirEntry => p.1 < q.1) d))

/-- An inode record (`S3Node` / its serial form): the fields of §3 of the spec
that the embedded operations touch. -/
structure Node where
  ino : Nat
  parent_ino : Nat
  name : String
  attr : FileAttr
  open_count : Nat
  lookup_count : Nat
  deferred_deletion : Bool
  dir_data : Dir
deriving DecidableEq, Repr

/-- `S3Node::get_entry`. -/
def Node.get_entry (n : Node) (name : String) : Option DirEntry := dirGet n.dir_data name

/-- `S3Node::get_type`: the node kind, read from the attribute block. -/
def Node.get_type (n : Node) : SFlag := n.attr.kind

/-- Modelled from the spec: `S3Node::is_node_data_empty` for a directory is
emptiness of its entry map. -/
def Node.is_node_data_empty (n : Node) : Bool := n.dir_data.isEmpty

/-- Modelled from the spec (§4.D release): `S3Node::close` decrements
`open_count`; the `flush` of dirty data goes to the data plane and does not
change the metadata fields. -/
def Node.close (n : Node) : Node := { n with open_count := n.open_count - 1 }

/-- Modelled from the spec (§4.D releasedir): `S3Node::closedir` decrements
`open_count`. -/
def Node.closedir (n : Node) : Node := { n with open_count := n.open_count - 1 }

/-- Modelled from the spec (§4.D forget): `S3Node::dec_lookup_count_by`
decrements `lookup_count` by `nlookup`, saturating at 0. -/
def Node.dec_lookup_count_by (n : Node) (nlookup : Nat) : Node :=
  { n with lookup_count := n.lookup_count - nlookup }

/-- Modelled from the spec: `S3Node::mark_deferred_deletion` sets the
`deferred_deletion` flag on the in-memory record. -/
def Node.mark_deferred_deletion (n : Node) : Node := { n with deferred_deletion := true }

/-- `S3Node::set_parent_ino`. -/
def Node.set_parent_ino (n : Node) (p : Nat) : Node := { n with parent_ino := p }

/-- `S3Node::set_name`. -/
def Node.set_name (n : Node) (s : String) : Node := { n with name := s }

/-- Modelled from the spec (§4.D unlink step 3): `S3Node::unlink_entry` removes
the named entry from the directory, returning the removed entry, or nothing
when the entry is absent. -/
def Node.unlink_entry (n : Node) (name : String) : Option (DirEntry × Node) :=
  match dirGet n.dir_data name with
  | none => none
  | some e => some (e, { n with dir_data := dirRemove n.dir_data name })

/-- Modelled from the spec (§4.D rename): `S3Node::remove_entry_for_rename`
removes the named entry from the directory map. -/
def Node.remove_entry_for_rename (n : Node) (name : String) : Option (DirEntry × Node) :=
  match dirGet n.dir_data name with
  | none => none
  | some e => some (e, { n with dir_data := dirRemove n.dir_data name })

/-- Modelled from the spec (§4.D rename): `S3Node::insert_entry_for_rename`
inserts the entry into the directory map under its name. -/
def Node.insert_entry_for_rename (n : Node) (e : DirEntry) : Node :=
  { n with dir_data := dirInsert n.dir_data e.entry_name e }

/-- The KV store restricted to the `INum2Node` keyspace: a partial map from
inode numbers to inode records. -/
def KV := Nat → Option Node

/-- `kv_engine.get(INum2Node(ino))`. -/
def kvGet (kv : KV) (ino : Nat) : Option Node := kv ino

/-- `txn.set(INum2Node(ino), node)` / `kv_engine.set`, applied at commit. -/
def kvSet (kv : KV) (ino : Nat) (n : Node) : KV :=
  fun i => if i = ino then some n else kv i

/-- `txn.delete(INum2Node(ino))` / `kv_engine.delete`, applied at commit. -/
def kvDelete (kv : KV) (ino : Nat) : KV :=
  fun i => if i = ino then none else kv i

/-- The request context delivered with every kernel operation (`ReqContext`). -/
structure ReqContext where
  uid : Nat
  gid : Nat
deriving DecidableEq, Repr

/-- POSIX error numbers surfaced by the embedded operations. -/
inductive Errno where
  | ENOENT
  | EACCES
  | EEXIST
  | ENOTDIR
  | ENOTEMPTY
  | EINVAL
  | ENAMETOOLONG
deriving DecidableEq, Repr

/-- The error taxonomy of the metadata layer (§7): POSIX errors,
`InconsistentFS`, and backend/transport failures (`anyhow` errors in the
source). -/
inductive Err where
  | posix (e : Errno)
  | inconsistentFS
  | backend
deriving DecidableEq, Repr

/-- `S3MetaData::check_sticky_bit` (s3_metadata.rs:1406-1422): with permission
checking enabled (`ncp`, the source's compile-time `NEED_CHECK_PERM` switch),
a non-root caller that owns neither the parent nor the child is refused when
the parent directory's mode has the sticky bit `0o1000`. -/
def check_sticky_bit (ncp : Bool) (ctx : ReqContext) (parent_node : Node)
    (child_entry : DirEntry) : Except Err Unit :=
  if ncp = true ∧ ctx.uid ≠ 0 ∧ parent_node.attr.perm &&& 0o1000 ≠ 0 ∧
      ctx.uid ≠ parent_node.attr.uid ∧ ctx.uid ≠ child_entry.attr.uid then
    .error (.posix .EACCES)
  else
    .ok ()

/-- `S3MetaData::delete_check` (s3_metadata.rs:455-473): true exactly when both
the open count and the lookup count of the node are zero.  (The source's doc
comment says it tries to delete a node "marked as deferred deletion", but the
body never reads the `deferred_deletion` mark.) -/
def delete_check (node : Node) : Bool :=
  node.open_count == 0 && node.lookup_count == 0

/-- `MetaData::forget` for `S3MetaData` (s3_metadata.rs:297-315): decrement the
lookup count, then delete the record from the KV store when `delete_check`
holds, otherwise write the decremented record back.  The (single, successful)
transaction is modelled by applying its staged writes directly. -/
def forget (kv : KV) (ino nlookup : Nat) : Except Err KV :=
  match kvGet kv ino with
  | none => .error .inconsistentFS
  | some inode0 =>
    let inode := inode0.dec_lookup_count_by nlookup
    if delete_check inode then .ok (kvDelete kv ino)
    else .ok (kvSet kv ino inode)

/-- `MetaData::release` for `S3MetaData` (s3_metadata.rs:83-103): close the
handle (decrementing `open_count`) and write the record back.  The source
stages `txn.set` unconditionally; it never calls `delete_check` here. -/
def release (kv : KV) (ino fh : Nat) (flush : Bool) : Except Err KV :=
  match kvGet kv ino with
  | none => .error .inconsistentFS
  | some inode0 =>
    let _ := fh
    let _ := flush
    let inode := inode0.close
    .ok (kvSet kv ino inode)

/-- `MetaData::releasedir` for `S3MetaData` (s3_metadata.rs:213-231): close the
directory handle, then delete the record when `delete_check` holds, otherwise
write it back. -/
def releasedir (kv : KV) (ino fh : Nat) : Except Err KV :=
  match kvGet kv ino with
  | none => .error .inconsistentFS
  | some node0 =>
    let _ := fh
    let node := node0.closedir
    if delete_check node then .ok (kvDelete kv ino)
    else .ok (kvSet kv ino node)

/-- `MetaData::getattr` for `S3MetaData` (s3_metadata.rs:285-295), returning
the stored attribute block; the record's `deferred_deletion` flag is returned
alongside (modelled from the spec, scenario S4, which observes the flag through
`getattr`). -/
def getattr (kv : KV) (ino : Nat) : Except Err (FileAttr × Bool) :=
  match kvGet kv ino with
  | none => .error .inconsistentFS
  | some n => .ok (n.attr, n.deferred_deletion)

/-- Modelled from the spec (§4.D read): `S3Node::get_file_data` returns memory
blocks covering `size` bytes starting at `offset`; modelled as that byte
range, `(start, length)`. -/
def Node.get_file_data (n : Node) (offset size : Nat) : Nat × Nat :=
  let _ := n
  (offset, size)

/-- `MetaData::read_helper` for `S3MetaData` (s3_metadata.rs:233-257): clamp
the requested size to `attr.size - offset` when `offset + size` overshoots the
file size, then return the data range (cache loading has no metadata effect). -/
def read_helper (kv : KV) (ino offset size : Nat) : Except Err (Nat × Nat) :=
  match kvGet kv ino with
  | none => .error .inconsistentFS
  | some inode =>
    let size' := if offset + size > inode.attr.size then inode.attr.size - offset else size
    .ok (inode.get_file_data offset size')

/-- Modelled from the spec (§4.F): `FileAttr::check_perm`, the classical POSIX
owner/group/other check with `want` a bitmask of r=4, w=2, x=1; root always
passes; `ncp` is the compile-time switch that disables checking. -/
def check_perm (ncp : Bool) (attr : FileAttr) (uid gid want : Nat) : Bool :=
  if ncp = false then true
  else if uid = 0 then true
  else
    let bits :=
      if uid = attr.uid then (attr.perm >>> 6) &&& 7
      else if gid = attr.gid then (attr.perm >>> 3) &&& 7
      else attr.perm &&& 7
    bits &&& want = want

/-- The `readdir_helper` closure of `MetaData::readdir` (s3_metadata.rs:114-137):
`data.iter().enumerate().skip(offset)` runs `i` over the absolute indices
`offset, offset+1, ...` of the ordered entry list, and each entry is emitted as
`(child_ino, offset + i + 1, name)`. -/
def readdirEmit (data : Dir) (offset : Nat) : List (Nat × Nat × String) :=
  (data.enum.drop offset).map fun p => (p.2.2.ino, offset + p.1 + 1, p.2.1)

/-- `MetaData::readdir` for `S3MetaData` (s3_metadata.rs:105-158): permission
check (execute on the directory), then emit the entries through
`readdir_helper`; directory data is taken as already materialized. -/
def readdir (ncp : Bool) (ctx : ReqContext) (kv : KV) (ino offset : Nat) :
    Except Err (List (Nat × Nat × String)) :=
  match kvGet kv ino with
  | none => .error .inconsistentFS
  | some inode =>
    if check_perm ncp inode.attr ctx.uid ctx.gid 5 then .ok (readdirEmit inode.dir_data offset)
    else .error (.posix .EACCES)

/-- `S3MetaData::deferred_delete_pre_check` (s3_metadata.rs:796-805): a node is
deferred-deleted (rather than deleted at once) when it still has outstanding
lookups or opens; also returns the parent inum and the node's name. -/
def deferred_delete_pre_check (inode : Node) : Bool × Nat × String :=
  (inode.lookup_count > 0 || inode.open_count > 0, inode.parent_ino, inode.name)

/-- `S3MetaData::may_deferred_delete_node_helper` (s3_metadata.rs:808-886):
remove the entry from the parent directory; when the node still has references,
mark the freshly re-read in-memory copy `deferred_deletion` — the source drops
that copy without ever writing it back to the KV store — otherwise delete the
record at once; finally persist the updated parent.  All KV accesses are direct
engine calls (no transaction). -/
def may_deferred_delete_node_helper (kv : KV) (ino : Nat) : Except Err KV :=
  match kvGet kv ino with
  | none => .error .backend
  | some inode =>
    let pre := deferred_delete_pre_check inode
    let deferred_deletion := pre.1
    let parent_ino := pre.2.1
    let node_name := pre.2.2
    match kvGet kv parent_ino with
    | none => .error .backend
    | some parent_node =>
      match parent_node.unlink_entry node_name with
      | none => .error .backend
      | some (_deleted_entry, parent_node') =>
        if deferred_deletion then
          -- the source re-reads the child and calls `mark_deferred_deletion` on
          -- the in-memory copy, which is then dropped: no KV write for `ino`
          let _dropped := ((kvGet kv ino).getD inode).mark_deferred_deletion
          .ok (kvSet kv parent_ino parent_node')
        else
          .ok (kvSet (kvDelete kv ino) parent_ino parent_node')

/-- `S3MetaData::remove_node_local` (s3_metadata.rs:1266-1367): the pre-checks
(entry exists, sticky bit, empty-directory check for directories, child record
exists) followed by `may_deferred_delete_node_helper`. -/
def remove_node_local (ncp : Bool) (ctx : ReqContext) (kv : KV) (parent : Nat)
    (node_name : String) (node_type : SFlag) : Except Err KV :=
  match kvGet kv parent with
  | none => .error .inconsistentFS
  | some parent_node =>
    match parent_node.get_entry node_name with
    | none => .error (.posix .ENOENT)
    | some child_entry =>
      match check_sticky_bit ncp ctx parent_node child_entry with
      | .error e => .error e
      | .ok _ =>
        let node_ino := child_entry.ino
        let dir_check : Except Err Unit :=
          if node_type = .S_IFDIR then
            match kvGet kv node_ino with
            | none => .error .inconsistentFS
            | some dir_node =>
              if dir_node.is_node_data_empty = false then .error (.posix .ENOTEMPTY)
              else .ok ()
          else .ok ()
        match dir_check with
        | .error e => .error e
        | .ok _ =>
          match kvGet kv node_ino with
          | none => .error .inconsistentFS
          | some _child_node => may_deferred_delete_node_helper kv node_ino

/-- `MetaData::unlink` for `S3MetaData` (s3_metadata.rs:344-369): look up the
child entry's type under the parent and delegate to
`remove_node_helper`/`remove_node_local`.  The guard against directories is a
`debug_assert_ne!` only, which release builds compile out; it is therefore
modelled as a no-op. -/
def unlink (ncp : Bool) (ctx : ReqContext) (kv : KV) (parent : Nat) (name : String) :
    Except Err KV :=
  match kvGet kv parent with
  | none => .error .inconsistentFS
  | some parent_node =>
    match parent_node.get_entry name with
    | none => .error .inconsistentFS
    | some child_entry =>
      let entry_type := child_entry.entry_type
      -- debug_assert_ne!(SFlag::S_IFDIR, entry_type, ..): no-op in release builds
      remove_node_local ncp ctx kv parent name entry_type

/-- The parameter record of `mknod` (`CreateParam`): parent inum, name, mode
bits, owner, and node kind. -/
structure CreateParam where
  parent : Nat
  name : String
  perm : Nat
  uid : Nat
  gid : Nat
  node_type : SFlag
deriving DecidableEq, Repr

/-- The KV engine as seen by the non-transactional handlers: the store, the
allocator counter (`InumCounter`), and the outcomes of the successive fallible
`kv_engine.set` calls (`true` = the write reaches the store, `false` = the
engine reports a transport failure and the store is unchanged). -/
structure Eng where
  kv : KV
  next_inum : Nat
  set_results : List Bool

/-- `S3MetaData::set_node_to_kv_engine` (s3_metadata.rs:768-780): one direct,
fallible engine write. -/
def engSet (st : Eng) (ino : Nat) (node : Node) : Eng × Bool :=
  match st.set_results with
  | [] => ({ st with kv := kvSet st.kv ino node }, true)
  | b :: rest =>
    if b then ({ st with kv := kvSet st.kv ino node, set_results := rest }, true)
    else ({ st with set_results := rest }, false)

/-- `S3MetaData::alloc_inum` backed by the cluster counter (§4.B): returns the
current counter value and increments it. -/
def alloc_inum (st : Eng) : Eng × Nat :=
  ({ st with next_inum := st.next_inum + 1 }, st.next_inum)

/-- Modelled from the spec (§4.D mknod steps 4-6): `S3Node::create_child_node`
builds the child record (parent back-pointer, `lookup_count = 1`) and adds the
matching entry to the parent's directory map, returning both. -/
def create_child_node (parent_node : Node) (param : CreateParam) (new_inum : Nat) :
    Node × Node :=
  let cattr : FileAttr :=
    { ino := new_inum, size := 0, perm := param.perm, uid := param.uid, gid := param.gid,
      kind := param.node_type }
  let child : Node :=
    { ino := new_inum, parent_ino := parent_node.ino, name := param.name, attr := cattr,
      open_count := 0, lookup_count := 1, deferred_deletion := false, dir_data := [] }
  (child, parent_node.insert_entry_for_rename ⟨param.name, cattr⟩)

/-- `MetaData::mknod` for `S3MetaData` (s3_metadata.rs:480-516): name/type
checks, `EEXIST` check on the parent, inum allocation, then two separate
non-transactional engine writes — first the child record, then the updated
parent.  The engine state after a failure is returned alongside the error. -/
def mknod (st : Eng) (param : CreateParam) : Eng × Except Err Nat :=
  if param.name.length > 255 then (st, .error (.posix .ENAMETOOLONG))
  else
    match kvGet st.kv param.parent with
    | none => (st, .error .inconsistentFS)
    | some parent_node =>
      if (parent_node.get_entry param.name).isSome then (st, .error (.posix .EEXIST))
      else
        let a := alloc_inum st
        let st1 := a.1
        let new_inum := a.2
        let cp := create_child_node parent_node param new_inum
        let s2 := engSet st1 new_inum cp.1
        if s2.2 = false then (s2.1, .error .backend)
        else
          let s3 := engSet s2.1 param.parent cp.2
          if s3.2 = false then (s3.1, .error .backend)
          else (s3.1, .ok new_inum)

/-- The parameter record of `rename` (`RenameParam`). -/
structure RenameParam where
  old_parent : Nat
  old_name : String
  new_parent : Nat
  new_name : String
  flags : Nat
deriving DecidableEq, Repr

/-- `S3MetaData::exchange_pre_check` (s3_metadata.rs:946-1045): both parents
exist and are directories, both entries exist, and the sticky-bit check passes
on both ends; returns the old parent node, the old entry's inum, the new
parent node (`none` when the parents coincide), and the new entry's inum. -/
def exchange_pre_check (ncp : Bool) (ctx : ReqContext) (kv : KV) (old_parent : Nat)
    (old_name : String) (new_parent : Nat) (new_name : String) :
    Except Err (Node × Nat × Option Node × Nat) :=
  match kvGet kv old_parent with
  | none => .error (.posix .ENOENT)
  | some old_parent_node =>
    if old_parent_node.get_type ≠ .S_IFDIR then .error (.posix .ENOTDIR)
    else
      match old_parent_node.get_entry old_name with
      | none => .error (.posix .ENOENT)
      | some old_entry =>
        match check_sticky_bit ncp ctx old_parent_node old_entry with
        | .error e => .error e
        | .ok _ =>
          if old_parent = new_parent then
            match old_parent_node.get_entry new_name with
            | none => .error (.posix .ENOENT)
            | some new_entry =>
              match check_sticky_bit ncp ctx old_parent_node new_entry with
              | .error e => .error e
              | .ok _ => .ok (old_parent_node, old_entry.ino, none, new_entry.ino)
          else
            match kvGet kv new_parent with
            | none => .error (.posix .ENOENT)
            | some new_parent_node =>
              if new_parent_node.get_type ≠ .S_IFDIR then .error (.posix .ENOTDIR)
              else
                match new_parent_node.get_entry new_name with
                | none => .error (.posix .ENOENT)
                | some new_entry =>
                  match check_sticky_bit ncp ctx new_parent_node new_entry with
                  | .error e => .error e
                  | .ok _ =>
                    .ok (old_parent_node, old_entry.ino, some new_parent_node, new_entry.ino)

/-- `S3MetaData::rename_exchange_helper` (s3_metadata.rs:577-678): refuse
`RENAME_NOREPLACE`+`RENAME_EXCHANGE`; run `exchange_pre_check`; when both
entries resolve to the same inum, return at once without staging any write;
otherwise swap the two inodes' `parent_ino`/`name`, replace each parent's
entry with one carrying the other entry's attribute block, and commit all the
staged writes.  The successful transaction is modelled by applying the staged
writes in their staging order. -/
def rename_exchange_helper (ncp : Bool) (ctx : ReqContext) (kv : KV) (p : RenameParam) :
    Except Err KV :=
  if p.flags = 1 then .error (.posix .EINVAL)
  else
    match exchange_pre_check ncp ctx kv p.old_parent p.old_name p.new_parent p.new_name with
    | .error e => .error e
    | .ok (old_parent_node, old_ino, onp, new_ino) =>
      if old_ino = new_ino then .ok kv
      else
        match kvGet kv old_ino, kvGet kv new_ino with
        | some old_node0, some new_node0 =>
          let old_node := (old_node0.set_parent_ino p.new_parent).set_name p.new_name
          let new_node := (new_node0.set_parent_ino p.old_parent).set_name p.old_name
          let kv1 := kvSet (kvSet kv old_ino old_node) new_ino new_node
          match onp with
          | some new_parent_node =>
            match old_parent_node.remove_entry_for_rename p.old_name,
                new_parent_node.remove_entry_for_rename p.new_name with
            | some (old_entry, op1), some (new_entry, np1) =>
              let op2 := op1.insert_entry_for_rename ⟨p.old_name, new_entry.attr⟩
              let np2 := np1.insert_entry_for_rename ⟨p.new_name, old_entry.attr⟩
              .ok (kvSet (kvSet kv1 p.old_parent op2) p.new_parent np2)
            | _, _ => .error .inconsistentFS
          | none =>
            match old_parent_node.remove_entry_for_rename p.old_name with
            | none => .error .inconsistentFS
            | some (old_entry, op1) =>
              match op1.remove_entry_for_rename p.new_name with
              | none => .error .inconsistentFS
              | some (new_entry, op2) =>
                let op3 := (op2.insert_entry_for_rename ⟨p.old_name, new_entry.attr⟩
                  ).insert_entry_for_rename ⟨p.new_name, old_entry.attr⟩
                .ok (kvSet kv1 p.old_parent op3)
        | _, _ => .error .inconsistentFS

deriving instance DecidableEq for Except

/-! Concrete filesystem states used to evaluate the operations on explicit
inputs, one cluster per claim. -/

/-- C1 instance: attribute block of the still-linked file of ino 2. -/
def attrC1 : FileAttr :=
  { ino := 2, size := 0, perm := 0o644, uid := 0, gid := 0, kind := .S_IFREG }

/-- C1 instance: the parent directory (ino 1) still holding the entry `"f"`. -/
def parentC1 : Node :=
  { ino := 1, parent_ino := 1, name := "/",
    attr := { ino := 1, size := 1, perm := 0o755, uid := 0, gid := 0, kind := .S_IFDIR },
    open_count := 0, lookup_count := 0, deferred_deletion := false,
    dir_data := [("f", ⟨"f", attrC1⟩)] }

/-- C1 instance: a live file node, never unlinked (`deferred_deletion = false`),
with one outstanding kernel lookup and no open handle. -/
def nodeC1 : Node :=
  { ino := 2, parent_ino := 1, name := "f", attr := attrC1, open_count := 0,
    lookup_count := 1, deferred_deletion := false, dir_data := [] }

/-- C1 instance: the KV store holding the parent and the live child. -/
def kvC1 : KV := fun i => if i = 1 then some parentC1 else if i = 2 then some nodeC1 else none

/-- C2 instance: a deferred-deleted file node with one open handle left and no
outstanding lookups. -/
def nodeC2 : Node :=
  { ino := 3, parent_ino := 1, name := "g",
    attr := { ino := 3, size := 0, perm := 0o644, uid := 0, gid := 0, kind := .S_IFREG },
    open_count := 1, lookup_count := 0, deferred_deletion := true, dir_data := [] }

/-- C2 instance: the KV store holding the deferred-deleted node. -/
def kvC2 : KV := fun i => if i = 3 then some nodeC2 else none

/-- C3 instance: attribute block of the open file of ino 3. -/
def attrC3 : FileAttr :=
  { ino := 3, size := 7, perm := 0o644, uid := 1000, gid := 1000, kind := .S_IFREG }

/-- C3 instance: the parent directory (ino 1) holding the entry `"f"` for the
child of ino 3. -/
def parentC3 : Node :=
  { ino := 1, parent_ino := 1, name := "/",
    attr := { ino := 1, size := 1, perm := 0o755, uid := 0, gid := 0, kind := .S_IFDIR },
    open_count := 0, lookup_count := 0, deferred_deletion := false,
    dir_data := [("f", ⟨"f", attrC3⟩)] }

/-- C3 instance: a file node with an outstanding lookup, so that unlink must
take the deferred-deletion path. -/
def childC3 : Node :=
  { ino := 3, parent_ino := 1, name := "f", attr := attrC3, open_count := 0,
    lookup_count := 1, deferred_deletion := false, dir_data := [] }

/-- C3 instance: the KV store holding the parent and the referenced child. -/
def kvC3 : KV := fun i => if i = 1 then some parentC3 else if i = 3 then some childC3 else none

/-- C4 instance: a root directory with no children. -/
def parentC4 : Node :=
  { ino := 1, parent_ino := 1, name := "/",
    attr := { ino := 1, size := 0, perm := 0o755, uid := 0, gid := 0, kind := .S_IFDIR },
    open_count := 0, lookup_count := 0, deferred_deletion := false, dir_data := [] }

/-- C4 instance: engine state whose second `set` call fails (the child write
succeeds, the parent write reports a transport failure). -/
def stC4 : Eng :=
  { kv := fun i => if i = 1 then some parentC4 else none, next_inum := 7,
    set_results := [true, false] }

/-- C4 instance: engine state in which every engine write succeeds. -/
def stC4ok : Eng :=
  { kv := fun i => if i = 1 then some parentC4 else none, next_inum := 7, set_results := [] }

/-- C4 instance: the creation request for a new file `"a"` under the root. -/
def paramC4 : CreateParam :=
  { parent := 1, name := "a", perm := 0o644, uid := 1000, gid := 1000, node_type := .S_IFREG }

/-- C5 instance: a directory (ino 1) with the two ordered entries `"a"` (ino 2)
and `"b"` (ino 3). -/
def dirNodeC5 : Node :=
  { ino := 1, parent_ino := 1, name := "/",
    attr := { ino := 1, size := 2, perm := 0o755, uid := 0, gid := 0, kind := .S_IFDIR },
    open_count := 0, lookup_count := 0, deferred_deletion := false,
    dir_data :=
      [("a", ⟨"a", { ino := 2, size := 0, perm := 0o644, uid := 0, gid := 0, kind := .S_IFREG }⟩),
       ("b", ⟨"b", { ino := 3, size := 0, perm := 0o644, uid := 0, gid := 0, kind := .S_IFREG }⟩)] }

/-- C5 instance: the KV store holding the two-entry directory. -/
def kvC5 : KV := fun i => if i = 1 then some dirNodeC5 else none

/-- C8 instance: attribute block of the empty subdirectory of ino 2. -/
def attrC8 : FileAttr :=
  { ino := 2, size := 0, perm := 0o755, uid := 0, gid := 0, kind := .S_IFDIR }

/-- C8 instance: the root directory (ino 1) holding the entry `"d"` for the
empty subdirectory. -/
def parentC8 : Node :=
  { ino := 1, parent_ino := 1, name := "/",
    attr := { ino := 1, size := 1, perm := 0o755, uid := 0, gid := 0, kind := .S_IFDIR },
    open_count := 0, lookup_count := 0, deferred_deletion := false,
    dir_data := [("d", ⟨"d", attrC8⟩)] }

/-- C8 instance: the empty subdirectory, with no outstanding references. -/
def dirNodeC8 : Node :=
  { ino := 2, parent_ino := 1, name := "d", attr := attrC8, open_count := 0,
    lookup_count := 0, deferred_deletion := false, dir_data := [] }

/-- C8 instance: the KV store holding the root and the empty subdirectory. -/
def kvC8 : KV := fun i => if i = 1 then some parentC8 else if i = 2 then some dirNodeC8 else none

/-- C9 instance: a file of size 5 at ino 2. -/
def nodeC9 : Node :=
  { ino := 2, parent_ino := 1, name := "f",
    attr := { ino := 2, size := 5, perm := 0o644, uid := 0, gid := 0, kind := .S_IFREG },
    open_count := 1, lookup_count := 1, deferred_deletion := false, dir_data := [] }

/-- C9 instance: the KV store holding the size-5 file. -/
def kvC9 : KV := fun i => if i = 2 then some nodeC9 else none

/-- C6 instance: attribute block of the directory `d1` (ino 11). -/
def attrD1C6 : FileAttr :=
  { ino := 11, size := 1, perm := 0o755, uid := 0, gid := 0, kind := .S_IFDIR }

/-- C6 instance: attribute block of the directory `d2` (ino 12). -/
def attrD2C6 : FileAttr :=
  { ino := 12, size := 1, perm := 0o755, uid := 0, gid := 0, kind := .S_IFDIR }

/-- C6 instance: attribute block of the file `x` (ino 4). -/
def attrXC6 : FileAttr :=
  { ino := 4, size := 0, perm := 0o644, uid := 0, gid := 0, kind := .S_IFREG }

/-- C6 instance: attribute block of the file `y` (ino 5). -/
def attrYC6 : FileAttr :=
  { ino := 5, size := 0, perm := 0o644, uid := 0, gid := 0, kind := .S_IFREG }

/-- C6 instance: the directory `d1` holding the entry `"x"` for ino 4. -/
def d1C6 : Node :=
  { ino := 11, parent_ino := 1, name := "d1", attr := attrD1C6, open_count := 0,
    lookup_count := 0, deferred_deletion := false, dir_data := [("x", ⟨"x", attrXC6⟩)] }

/-- C6 instance: the directory `d2` holding the entry `"y"` for ino 5. -/
def d2C6 : Node :=
  { ino := 12, parent_ino := 1, name := "d2", attr := attrD2C6, open_count := 0,
    lookup_count := 0, deferred_deletion := false, dir_data := [("y", ⟨"y", attrYC6⟩)] }

/-- C6 instance: the file node `x` under `d1`. -/
def xC6 : Node :=
  { ino := 4, parent_ino := 11, name := "x", attr := attrXC6, open_count := 0,
    lookup_count := 0, deferred_deletion := false, dir_data := [] }

/-- C6 instance: the file node `y` under `d2`. -/
def yC6 : Node :=
  { ino := 5, parent_ino := 12, name := "y", attr := attrYC6, open_count := 0,
    lookup_count := 0, deferred_deletion := false, dir_data := [] }

/-- C6 instance: the KV store holding the two directories and their children. -/
def kvC6 : KV := fun i =>
  if i = 11 then some d1C6 else if i = 12 then some d2C6
  else if i = 4 then some xC6 else if i = 5 then some yC6 else none

/-- C6 instance: the exchange request swapping `(11, "x")` and `(12, "y")`. -/
def paramC6 : RenameParam :=
  { old_parent := 11, old_name := "x", new_parent := 12, new_name := "y", flags := 2 }

/-- C10 instance: attribute block of the file `x` (ino 4) under ino 11. -/
def attrXC10 : FileAttr :=
  { ino := 4, size := 0, perm := 0o644, uid := 0, gid := 0, kind := .S_IFREG }

/-- C10 instance: the directory (ino 11) holding the entry `"x"` for ino 4. -/
def dirC10 : Node :=
  { ino := 11, parent_ino := 1, name := "d",
    attr := { ino := 11, size := 1, perm := 0o755, uid := 0, gid := 0, kind := .S_IFDIR },
    open_count := 0, lookup_count := 0, deferred_deletion := false,
    dir_data := [("x", ⟨"x", attrXC10⟩)] }

/-- C10 instance: the file node `x`. -/
def xC10 : Node :=
  { ino := 4, parent_ino := 11, name := "x", attr := attrXC10, open_count := 0,
    lookup_count := 0, deferred_deletion := false, dir_data := [] }

/-- C10 instance: the KV store holding the directory and the file. -/
def kvC10 : KV := fun i => if i = 11 then some dirC10 else if i = 4 then some xC10 else none

/-- C10 instance: the exchange request whose two entries resolve to the same
inum (old and new pick out the same entry `(11, "x")`). -/
def paramC10 : RenameParam :=
  { old_parent := 11, old_name := "x", new_parent := 11, new_name := "x", flags := 2 }

/-! Theorems. -/

/-- C1: the claim says `forget` deletes the record from the KV store only if
the node is in `deferred_deletion` state (with both counts zero).  The code's
`delete_check` never reads the mark: on a node that was never unlinked
(`deferred_deletion = false`, still listed under its parent), with
`lookup_count = 1` and `open_count = 0`, `forget(ino, 1)` physically deletes
the record. -/
theorem forget_deletes_node_never_marked_deferred :
    nodeC1.deferred_deletion = false ∧
    nodeC1.open_count = 0 ∧ nodeC1.lookup_count = 1 ∧
    (kvGet kvC1 1).map (fun nd => (dirGet nd.dir_data "f").map DirEntry.ino) =
      some (some 2) ∧
    (forget kvC1 2 1).map (fun kv => kvGet kv 2) = .ok none := by decide

/-- C2 counterexample: the claim says `release`, via `delete_check`, removes a
deferred-deleted node's record once both counts reach zero.  On a
deferred-deleted node with `open_count = 1` and `lookup_count = 0`, `release`
brings both counts to zero yet writes the record back: it never invokes
`delete_check` and never deletes. -/
theorem release_keeps_deferred_record_with_both_counts_zero :
    nodeC2.deferred_deletion = true ∧
    delete_check { nodeC2 with open_count := 0 } = true ∧
    (release kvC2 3 9 false).map (fun kv => kvGet kv 3) =
      .ok (some { nodeC2 with open_count := 0 }) := by decide

/-- C2 (amended): `release` decrements the node's `open_count` and always
writes the record back to the KV store; it never removes the record
(`delete_check` is not invoked by `release`). -/
theorem release_always_writes_record_back (kv : KV) (ino fh : Nat) (flush : Bool) (node : Node)
    (h : kvGet kv ino = some node) :
    release kv ino fh flush = .ok (kvSet kv ino node.close) ∧
    kvGet (kvSet kv ino node.close) ino = some node.close := by
  refine ⟨by simp [release, h], ?_⟩
  simp [kvGet, kvSet]

/-- C2 witness: the amended theorem evaluated on the deferred-deleted node of
the counterexample state. -/
theorem release_always_writes_record_back_witness :
    release kvC2 3 9 false = .ok (kvSet kvC2 3 nodeC2.close) ∧
    kvGet (kvSet kvC2 3 nodeC2.close) 3 = some nodeC2.close :=
  release_always_writes_record_back kvC2 3 9 false nodeC2 rfl

/-- C3: the claim says unlinking a child with `lookup_count > 0` persists the
child's record marked `deferred_deletion`, so `getattr` then reports the flag
as true.  The code removes the parent entry but marks only the dropped
in-memory copy: the persisted child record is unchanged and `getattr` still
reports `deferred_deletion = false`. -/
theorem unlink_leaves_child_record_unmarked :
    childC3.lookup_count = 1 ∧ childC3.deferred_deletion = false ∧
    (unlink true ⟨1000, 1000⟩ kvC3 1 "f").map
        (fun kv => ((kvGet kv 1).map (fun nd => dirGet nd.dir_data "f"), kvGet kv 3)) =
      .ok (some none, some childC3) ∧
    (unlink true ⟨1000, 1000⟩ kvC3 1 "f").map (fun kv => getattr kv 3) =
      .ok (.ok (attrC3, false)) := by decide

/-- C4 counterexample: the claim says mknod's two KV writes take effect
together, the store being unchanged when the handler returns an error.  With
the child write succeeding and the parent write failing, `mknod` returns an
error while the newly allocated child record (ino 7) is already persisted. -/
theorem mknod_error_leaves_child_persisted :
    (mknod stC4 paramC4).2 = .error .backend ∧
    kvGet stC4.kv 7 = none ∧
    kvGet (mknod stC4 paramC4).1.kv 7 = some (create_child_node parentC4 paramC4 7).1 ∧
    kvGet (mknod stC4 paramC4).1.kv 1 = some parentC4 := by decide

/-- C4 (amended): `mknod` persists the new child record and then the updated
parent record by two separate non-transactional engine writes; when both
writes succeed, both records take effect. -/
theorem mknod_persists_child_and_parent_when_writes_succeed (st : Eng) (param : CreateParam)
    (parent_node : Node)
    (hlen : param.name.length ≤ 255)
    (hp : kvGet st.kv param.parent = some parent_node)
    (hfree : parent_node.get_entry param.name = none)
    (hres : st.set_results = [])
    (hne : param.parent ≠ st.next_inum) :
    (mknod st param).2 = .ok st.next_inum ∧
    kvGet (mknod st param).1.kv st.next_inum =
      some (create_child_node parent_node param st.next_inum).1 ∧
    kvGet (mknod st param).1.kv param.parent =
      some (create_child_node parent_node param st.next_inum).2 := by
  have hlen2 : ¬ param.name.length > 255 := by omega
  have hp2 : st.kv param.parent = some parent_node := hp
  have hfree2 : parent_node.get_entry param.name = none := hfree
  simp only [mknod, hlen2, if_false, kvGet, hp2, hfree2, Option.isSome_none, alloc_inum,
    engSet, hres, Bool.false_eq_true, if_true]
  simp [kvSet, hne, Ne.symm hne]

/-- C4 witness: the amended theorem evaluated on the all-writes-succeed engine
state. -/
theorem mknod_persists_child_and_parent_when_writes_succeed_witness :
    (mknod stC4ok paramC4).2 = .ok stC4ok.next_inum ∧
    kvGet (mknod stC4ok paramC4).1.kv stC4ok.next_inum =
      some (create_child_node parentC4 paramC4 stC4ok.next_inum).1 ∧
    kvGet (mknod stC4ok paramC4).1.kv paramC4.parent =
      some (create_child_node parentC4 paramC4 stC4ok.next_inum).2 :=
  mknod_persists_child_and_parent_when_writes_succeed stC4ok paramC4 parentC4 (by decide) rfl
    (by decide) rfl (by decide)

/-- C5: the claim says the offset emitted with each entry equals that entry's
1-based position in the full ordered entry list, independent of the starting
offset.  Because the source enumerates before skipping, the loop variable is
already the absolute index and the emitted value is `offset + i + 1`: starting
at offset 1 in a two-entry directory, the entry `"b"` (1-based position 2) is
emitted with offset 3, and resuming from an emitted offset skips entries. -/
theorem readdir_emitted_offset_double_counts_start :
    readdir true ⟨0, 0⟩ kvC5 1 0 = .ok [(2, 1, "a"), (3, 2, "b")] ∧
    readdir true ⟨0, 0⟩ kvC5 1 1 = .ok [(3, 3, "b")] ∧
    readdirEmit dirNodeC5.dir_data 1 = [(3, 3, "b")] := by decide

/-- C7: with permission checking enabled, `check_sticky_bit` returns `EACCES`
exactly when the parent's mode has the `0o1000` bit, the caller is not root,
and the caller owns neither the parent nor the child; in every other case it
succeeds. -/
theorem check_sticky_bit_eacces_characterization (ctx : ReqContext) (parent_node : Node)
    (child_entry : DirEntry) :
    (check_sticky_bit true ctx parent_node child_entry = .error (.posix .EACCES) ↔
      (parent_node.attr.perm &&& 0o1000 ≠ 0 ∧ ctx.uid ≠ 0 ∧
       ctx.uid ≠ parent_node.attr.uid ∧ ctx.uid ≠ child_entry.attr.uid)) ∧
    (check_sticky_bit true ctx parent_node child_entry = .ok () ↔
      ¬ (parent_node.attr.perm &&& 0o1000 ≠ 0 ∧ ctx.uid ≠ 0 ∧
         ctx.uid ≠ parent_node.attr.uid ∧ ctx.uid ≠ child_entry.attr.uid)) := by
  unfold check_sticky_bit
  by_cases hP : parent_node.attr.perm &&& 0o1000 ≠ 0 ∧ ctx.uid ≠ 0 ∧
      ctx.uid ≠ parent_node.attr.uid ∧ ctx.uid ≠ child_entry.attr.uid
  · rw [if_pos (by tauto)]
    simp [hP]
  · rw [if_neg (by tauto)]
    simp [hP]

/-- C8: the claim says `unlink` of a directory returns an error and does not
remove the entry.  The only guard in the source is a `debug_assert_ne!`,
absent from release builds; the fall-through path removes an empty directory:
`unlink` succeeds, the parent entry is gone and the directory record is
deleted. -/
theorem unlink_removes_empty_directory :
    (kvGet kvC8 1).map (fun nd => (dirGet nd.dir_data "d").map DirEntry.entry_type) =
      some (some .S_IFDIR) ∧
    (unlink true ⟨1000, 1000⟩ kvC8 1 "d").map
        (fun kv => ((kvGet kv 1).map (fun nd => dirGet nd.dir_data "d"), kvGet kv 2)) =
      .ok (some none, none) := by decide

/-- C9: `read_helper` clamps the requested size to `attr.size - offset`: when
`offset + size` exceeds the file size, the returned range starts at `offset`
and covers exactly `attr.size - offset` bytes (ending at `attr.size`);
otherwise it covers exactly `size` bytes. -/
theorem read_helper_clamps_size_to_file_end (kv : KV) (ino offset size : Nat) (node : Node)
    (h : kvGet kv ino = some node) (hoff : offset ≤ node.attr.size) :
    read_helper kv ino offset size =
      .ok (offset, if offset + size > node.attr.size then node.attr.size - offset else size) ∧
    (offset + size > node.attr.size →
      offset + (if offset + size > node.attr.size then node.attr.size - offset else size) =
        node.attr.size) := by
  refine ⟨by simp [read_helper, h, Node.get_file_data], ?_⟩
  intro hgt
  rw [if_pos hgt]
  omega

/-- C9 witness: the clamping theorem evaluated on a size-5 file with
`offset = 3`, `size = 10`. -/
theorem read_helper_clamps_size_to_file_end_witness :
    read_helper kvC9 2 3 10 =
      .ok (3, if 3 + 10 > nodeC9.attr.size then nodeC9.attr.size - 3 else 10) ∧
    (3 + 10 > nodeC9.attr.size →
      3 + (if 3 + 10 > nodeC9.attr.size then nodeC9.attr.size - 3 else 10) =
        nodeC9.attr.size) :=
  read_helper_clamps_size_to_file_end kvC9 2 3 10 nodeC9 rfl (by decide)

/-! Lemma kit for the ordered-entry-list model of `BTreeMap`. -/

theorem dirGet_dirInsert_self (d : Dir) (k : String) (v : DirEntry) :
    dirGet (dirInsert d k v) k = some v := by
  induction d with
  | nil => simp [dirInsert, dirGet]
  | cons p rest ih =>
    by_cases h1 : p.1 = k
    · simp [dirInsert, h1, dirGet]
    · by_cases h2 : k < p.1
      · simp [dirInsert, h1, h2, dirGet]
      · simp [dirInsert, h1, h2, dirGet, ih]

theorem dirGet_dirInsert_ne (d : Dir) (k k' : String) (v : DirEntry) (h : k' ≠ k) :
    dirGet (dirInsert d k v) k' = dirGet d k' := by
  have hkk' : ¬ k = k' := fun hh => h hh.symm
  induction d with
  | nil => simp only [dirInsert, dirGet, if_neg hkk']
  | cons p rest ih =>
    by_cases h1 : p.1 = k
    · have hpk' : ¬ p.1 = k' := by rw [h1]; exact Ne.symm h
      simp only [dirInsert, if_pos h1, dirGet, if_neg hkk', if_neg hpk']
    · by_cases h2 : k < p.1
      · simp only [dirInsert, if_neg h1, if_pos h2, dirGet, if_neg hkk']
      · simp only [dirInsert, if_neg h1, if_neg h2, dirGet, ih]

theorem dirGet_dirRemove_self (d : Dir) (k : String) : dirGet (dirRemove d k) k = none := by
  induction d with
  | nil => simp [dirRemove, dirGet]
  | cons p rest ih =>
    by_cases h1 : p.1 = k
    · simp [dirRemove, h1, ih]
    · simp [dirRemove, h1, dirGet, ih]

theorem dirGet_dirRemove_ne (d : Dir) (k k' : String) (h : k' ≠ k) :
    dirGet (dirRemove d k) k' = dirGet d k' := by
  induction d with
  | nil => simp [dirRemove]
  | cons p rest ih =>
    by_cases h1 : p.1 = k
    · have hpk' : ¬ p.1 = k' := by rw [h1]; exact Ne.symm h
      simp only [dirRemove, if_pos h1, dirGet, if_neg hpk', ih]
    · simp only [dirRemove, if_neg h1, dirGet, ih]

theorem dirRemove_sublist (d : Dir) (k : String) : List.Sublist (dirRemove d k) d := by
  induction d with
  | nil => simp [dirRemove]
  | cons p rest ih =>
    by_cases h1 : p.1 = k
    · simp only [dirRemove, h1, if_pos rfl]
      exact ih.cons p
    · simp only [dirRemove, if_neg h1]
      exact ih.cons₂ p

theorem sorted_dirRemove (d : Dir) (k : String) (h : DirSorted d) :
    DirSorted (dirRemove d k) :=
  List.Pairwise.sublist (dirRemove_sublist d k) h

theorem mem_dirInsert (d : Dir) (k : String) (v : DirEntry) (q : String × DirEntry)
    (hq : q ∈ dirInsert d k v) : q = (k, v) ∨ q ∈ d := by
  induction d with
  | nil => simpa [dirInsert] using hq
  | cons p rest ih =>
    by_cases h1 : p.1 = k
    · simp only [dirInsert, if_pos h1] at hq
      rcases List.mem_cons.mp hq with h | h
      · exact Or.inl h
      · exact Or.inr (List.mem_cons_of_mem p h)
    · by_cases h2 : k < p.1
      · simp only [dirInsert, if_neg h1, if_pos h2] at hq
        rcases List.mem_cons.mp hq with h | h
        · exact Or.inl h
        · exact Or.inr h
      · simp only [dirInsert, if_neg h1, if_neg h2] at hq
        rcases List.mem_cons.mp hq with h | h
        · exact Or.inr (h ▸ List.mem_cons_self p rest)
        · rcases ih h with h' | h'
          · exact Or.inl h'
          · exact Or.inr (List.mem_cons_of_mem p h')

theorem sorted_dirInsert (d : Dir) (k : String) (v : DirEntry) (h : DirSorted d) :
    DirSorted (dirInsert d k v) := by
  induction d with
  | nil => simp [dirInsert, DirSorted]
  | cons p rest ih =>
    rw [DirSorted, List.pairwise_cons] at h
    obtain ⟨hall, htail⟩ := h
    by_cases h1 : p.1 = k
    · simp only [dirInsert, if_pos h1]
      rw [DirSorted, List.pairwise_cons]
      exact ⟨fun q hq => h1 ▸ hall q hq, htail⟩
    · by_cases h2 : k < p.1
      · simp only [dirInsert, if_neg h1, if_pos h2]
        rw [DirSorted, List.pairwise_cons]
        refine ⟨?_, ?_⟩
        · intro q hq
          rcases List.mem_cons.mp hq with h' | h'
          · rw [h']; exact h2
          · exact lt_trans h2 (hall q h')
        · rw [DirSorted, List.pairwise_cons] at *
          exact ⟨hall, htail⟩
      · simp only [dirInsert, if_neg h1, if_neg h2]
        have hpk : p.1 < k := lt_of_le_of_ne (not_lt.mp h2) h1
        rw [DirSorted, List.pairwise_cons]
        refine ⟨?_, ih htail⟩
        intro q hq
        rcases mem_dirInsert rest k v q hq with h' | h'
        · rw [h']; exact hpk
        · exact hall q h'

theorem dirGet_eq_none_of_forall_lt (d : Dir) (k : String)
    (h : ∀ q ∈ d, k < q.1) : dirGet d k = none := by
  induction d with
  | nil => simp [dirGet]
  | cons p rest ih =>
    have hp : k < p.1 := h p (List.mem_cons_self p rest)
    have hkp : p.1 ≠ k := fun hh => absurd hp (hh ▸ lt_irrefl k)
    simp only [dirGet, if_neg hkp]
    exact ih (fun q hq => h q (List.mem_cons_of_mem p hq))

theorem dir_ext (d1 : Dir) : ∀ (d2 : Dir), DirSorted d1 → DirSorted d2 →
    (∀ k, dirGet d1 k = dirGet d2 k) → d1 = d2 := by
  induction d1 with
  | nil =>
    intro d2 _ _ h
    cases d2 with
    | nil => rfl
    | cons q rest2 =>
      exact absurd (h q.1) (by simp [dirGet])
  | cons p rest ih =>
    intro d2 h1 h2 h
    cases d2 with
    | nil => exact absurd (h p.1) (by simp [dirGet])
    | cons q rest2 =>
      rw [DirSorted, List.pairwise_cons] at h1 h2
      obtain ⟨hall1, htail1⟩ := h1
      obtain ⟨hall2, htail2⟩ := h2
      have hpq : p.1 = q.1 := by
        rcases lt_trichotomy p.1 q.1 with hlt | heq | hgt
        · have hr : dirGet (q :: rest2) p.1 = none := by
            have hnq : q.1 ≠ p.1 := Ne.symm (ne_of_lt hlt)
            simp only [dirGet, if_neg hnq]
            exact dirGet_eq_none_of_forall_lt rest2 p.1
              (fun r hr => lt_trans hlt (hall2 r hr))
          have hl : dirGet (p :: rest) p.1 = some p.2 := by simp [dirGet]
          rw [h p.1, hr] at hl
          exact absurd hl (by simp)
        · exact heq
        · have hr : dirGet (p :: rest) q.1 = none := by
            have hnp : p.1 ≠ q.1 := Ne.symm (ne_of_lt hgt)
            simp only [dirGet, if_neg hnp]
            exact dirGet_eq_none_of_forall_lt rest q.1
              (fun r hr => lt_trans hgt (hall1 r hr))
          have hl : dirGet (q :: rest2) q.1 = some q.2 := by simp [dirGet]
          rw [← h q.1, hr] at hl
          exact absurd hl (by simp)
      have hv : p.2 = q.2 := by
        have := h p.1
        rw [show dirGet (p :: rest) p.1 = some p.2 by simp [dirGet],
          show dirGet (q :: rest2) p.1 = some q.2 by simp [dirGet, hpq]] at this
        exact Option.some.inj this
      have hrest : ∀ k, dirGet rest k = dirGet rest2 k := by
        intro k
        by_cases hk : k = p.1
        · rw [hk]
          rw [dirGet_eq_none_of_forall_lt rest p.1 hall1,
            dirGet_eq_none_of_forall_lt rest2 p.1 (by rw [hpq]; exact hall2)]
        · have := h k
          have hn1 : p.1 ≠ k := Ne.symm hk
          have hn2 : q.1 ≠ k := by rw [← hpq]; exact hn1
          simpa only [dirGet, if_neg hn1, if_neg hn2] using this
      have hpqe : p = q := Prod.ext hpq hv
      rw [hpqe, ih rest2 htail1 htail2 hrest]

/-! Lemma kit for the KV map and node records. -/

theorem kvGet_kvSet_self (kv : KV) (i : Nat) (n : Node) : kvGet (kvSet kv i n) i = some n := by
  simp [kvGet, kvSet]

theorem kvGet_kvSet_ne (kv : KV) (i j : Nat) (n : Node) (h : j ≠ i) :
    kvGet (kvSet kv i n) j = kvGet kv j := by
  simp [kvGet, kvSet, h]

theorem check_sticky_bit_attr_congr (ncp : Bool) (ctx : ReqContext) (p q : Node)
    (e : DirEntry) (h : p.attr = q.attr) :
    check_sticky_bit ncp ctx p e = check_sticky_bit ncp ctx q e := by
  unfold check_sticky_bit
  rw [h]

theorem node_set_parent_name_self (n : Node) (p : Nat) (s : String)
    (hp : n.parent_ino = p) (hs : n.name = s) :
    { n with parent_ino := p, name := s } = n := by
  subst hp
  subst hs
  rfl

theorem node_set_dir_self (n : Node) (d : Dir) (hd : d = n.dir_data) :
    { n with dir_data := d } = n := by
  subst hd
  rfl

/-- One exchange-rename step with distinct parent directories, characterized on
a state where all the pre-checks pass: the committed store swaps the two
inodes' parent/name fields and swaps the attribute blocks held by the two
entries. -/
theorem rename_exchange_spec_diff (ncp : Bool) (ctx : ReqContext) (kv : KV) (p : RenameParam)
    (OP NP A B : Node) (aA aB : FileAttr)
    (hflags : p.flags ≠ 1)
    (hpp : p.old_parent ≠ p.new_parent)
    (hOP : kvGet kv p.old_parent = some OP) (hOPdir : OP.get_type = .S_IFDIR)
    (hNP : kvGet kv p.new_parent = some NP) (hNPdir : NP.get_type = .S_IFDIR)
    (hoe : OP.get_entry p.old_name = some ⟨p.old_name, aA⟩)
    (hen : NP.get_entry p.new_name = some ⟨p.new_name, aB⟩)
    (hs1 : check_sticky_bit ncp ctx OP ⟨p.old_name, aA⟩ = .ok ())
    (hs2 : check_sticky_bit ncp ctx NP ⟨p.new_name, aB⟩ = .ok ())
    (hino : aA.ino ≠ aB.ino)
    (hA : kvGet kv aA.ino = some A) (hB : kvGet kv aB.ino = some B) :
    rename_exchange_helper ncp ctx kv p =
      .ok (kvSet (kvSet (kvSet (kvSet kv
        aA.ino { A with parent_ino := p.new_parent, name := p.new_name })
        aB.ino { B with parent_ino := p.old_parent, name := p.old_name })
        p.old_parent
        { OP with dir_data :=
            dirInsert (dirRemove OP.dir_data p.old_name) p.old_name ⟨p.old_name, aB⟩ })
        p.new_parent
        { NP with dir_data :=
            dirInsert (dirRemove NP.dir_data p.new_name) p.new_name ⟨p.new_name, aA⟩ }) := by
  have hoe2 : dirGet OP.dir_data p.old_name = some ⟨p.old_name, aA⟩ := hoe
  have hen2 : dirGet NP.dir_data p.new_name = some ⟨p.new_name, aB⟩ := hen
  simp only [rename_exchange_helper, exchange_pre_check, if_neg hflags, hOP, hNP, hoe, hen,
    hOPdir, hNPdir, hs1, hs2, ne_eq, not_true_eq_false, if_false, if_neg hpp, DirEntry.ino,
    if_neg hino, hA, hB, Node.set_parent_ino, Node.set_name, Node.remove_entry_for_rename,
    Node.insert_entry_for_rename, hoe2, hen2]

/-- One exchange-rename step inside a single parent directory, characterized on
a state where all the pre-checks pass. -/
theorem rename_exchange_spec_same (ncp : Bool) (ctx : ReqContext) (kv : KV) (p : RenameParam)
    (OP A B : Node) (aA aB : FileAttr)
    (hflags : p.flags ≠ 1)
    (hpp : p.old_parent = p.new_parent)
    (honame : p.old_name ≠ p.new_name)
    (hOP : kvGet kv p.old_parent = some OP) (hOPdir : OP.get_type = .S_IFDIR)
    (hoe : OP.get_entry p.old_name = some ⟨p.old_name, aA⟩)
    (hen : OP.get_entry p.new_name = some ⟨p.new_name, aB⟩)
    (hs1 : check_sticky_bit ncp ctx OP ⟨p.old_name, aA⟩ = .ok ())
    (hs2 : check_sticky_bit ncp ctx OP ⟨p.new_name, aB⟩ = .ok ())
    (hino : aA.ino ≠ aB.ino)
    (hA : kvGet kv aA.ino = some A) (hB : kvGet kv aB.ino = some B) :
    rename_exchange_helper ncp ctx kv p =
      .ok (kvSet (kvSet (kvSet kv
        aA.ino { A with parent_ino := p.new_parent, name := p.new_name })
        aB.ino { B with parent_ino := p.old_parent, name := p.old_name })
        p.old_parent
        { OP with dir_data :=
            dirInsert (dirInsert (dirRemove (dirRemove OP.dir_data p.old_name) p.new_name)
              p.old_name ⟨p.old_name, aB⟩) p.new_name ⟨p.new_name, aA⟩ }) := by
  have hoe2 : dirGet OP.dir_data p.old_name = some ⟨p.old_name, aA⟩ := hoe
  have hen2 : dirGet OP.dir_data p.new_name = some ⟨p.new_name, aB⟩ := hen
  have hen3 : dirGet (dirRemove OP.dir_data p.old_name) p.new_name =
      some ⟨p.new_name, aB⟩ := by
    rw [dirGet_dirRemove_ne _ _ _ (Ne.symm honame), hen2]
  simp only [rename_exchange_helper, exchange_pre_check, if_neg hflags, hOP, hoe, hen, hOPdir,
    hs1, hs2, ne_eq, not_true_eq_false, if_false, if_pos hpp, DirEntry.ino, if_neg hino,
    hA, hB, Node.set_parent_ino, Node.set_name, Node.remove_entry_for_rename,
    Node.insert_entry_for_rename, hoe2, hen2, hen3]

/-- C10: when the exchange pre-checks pass and both entries resolve to the same
inode number, `rename_exchange_helper` returns success immediately, with the KV
store exactly as it was (no write is staged or committed). -/
theorem rename_exchange_same_ino_noop (ncp : Bool) (ctx : ReqContext) (kv : KV)
    (p : RenameParam) (OP NP : Node) (eo en : DirEntry)
    (hflags : p.flags ≠ 1)
    (hOP : kvGet kv p.old_parent = some OP) (hOPdir : OP.get_type = .S_IFDIR)
    (hNP : kvGet kv p.new_parent = some NP) (hNPdir : NP.get_type = .S_IFDIR)
    (hoe : OP.get_entry p.old_name = some eo)
    (hen : NP.get_entry p.new_name = some en)
    (hs1 : check_sticky_bit ncp ctx OP eo = .ok ())
    (hs2 : check_sticky_bit ncp ctx NP en = .ok ())
    (hino : eo.ino = en.ino) :
    rename_exchange_helper ncp ctx kv p = .ok kv := by
  by_cases hpp : p.old_parent = p.new_parent
  · have hNPOP : NP = OP := by
      rw [← hpp] at hNP
      rw [hOP] at hNP
      exact (Option.some.inj hNP).symm
    subst hNPOP
    simp only [rename_exchange_helper, exchange_pre_check, if_neg hflags, hOP, hOPdir, hoe,
      hs1, ne_eq, not_true_eq_false, if_false, if_pos hpp, hen, hs2]
    rw [if_pos hino]
  · simp only [rename_exchange_helper, exchange_pre_check, if_neg hflags, hOP, hOPdir, hoe,
      hs1, ne_eq, not_true_eq_false, if_false, if_neg hpp, hNP, hNPdir, hen, hs2]
    rw [if_pos hino]

/-- Exchange rename applied twice with the same arguments, distinct parents:
the store returns to its initial value. -/
theorem rename_exchange_twice_diff (ncp : Bool) (ctx : ReqContext) (kv : KV) (p : RenameParam)
    (OP NP A B : Node) (aA aB : FileAttr)
    (hflags : p.flags ≠ 1) (hpp : p.old_parent ≠ p.new_parent)
    (hOP : kvGet kv p.old_parent = some OP) (hOPdir : OP.get_type = .S_IFDIR)
    (hNP : kvGet kv p.new_parent = some NP) (hNPdir : NP.get_type = .S_IFDIR)
    (hOPs : DirSorted OP.dir_data) (hNPs : DirSorted NP.dir_data)
    (hoe : OP.get_entry p.old_name = some ⟨p.old_name, aA⟩)
    (hen : NP.get_entry p.new_name = some ⟨p.new_name, aB⟩)
    (hs1 : check_sticky_bit ncp ctx OP ⟨p.old_name, aA⟩ = .ok ())
    (hs2 : check_sticky_bit ncp ctx NP ⟨p.new_name, aB⟩ = .ok ())
    (hs3 : check_sticky_bit ncp ctx OP ⟨p.old_name, aB⟩ = .ok ())
    (hs4 : check_sticky_bit ncp ctx NP ⟨p.new_name, aA⟩ = .ok ())
    (hino : aA.ino ≠ aB.ino)
    (hA : kvGet kv aA.ino = some A) (hB : kvGet kv aB.ino = some B)
    (hApar : A.parent_ino = p.old_parent) (hAname : A.name = p.old_name)
    (hBpar : B.parent_ino = p.new_parent) (hBname : B.name = p.new_name)
    (hAop : aA.ino ≠ p.old_parent) (hAnp : aA.ino ≠ p.new_parent)
    (hBop : aB.ino ≠ p.old_parent) (hBnp : aB.ino ≠ p.new_parent) :
    Except.bind (rename_exchange_helper ncp ctx kv p)
      (fun kv1 => rename_exchange_helper ncp ctx kv1 p) = .ok kv := by
  rw [rename_exchange_spec_diff ncp ctx kv p OP NP A B aA aB hflags hpp hOP hOPdir hNP hNPdir
    hoe hen hs1 hs2 hino hA hB]
  simp only [Except.bind]
  set A1 : Node := { A with parent_ino := p.new_parent, name := p.new_name } with hA1
  set B1 : Node := { B with parent_ino := p.old_parent, name := p.old_name } with hB1
  set OP1 : Node :=
    { OP with dir_data :=
        dirInsert (dirRemove OP.dir_data p.old_name) p.old_name ⟨p.old_name, aB⟩ } with hOP1
  set NP1 : Node :=
    { NP with dir_data :=
        dirInsert (dirRemove NP.dir_data p.new_name) p.new_name ⟨p.new_name, aA⟩ } with hNP1
  set KV1 : KV := kvSet (kvSet (kvSet (kvSet kv aA.ino A1) aB.ino B1) p.old_parent OP1)
    p.new_parent NP1 with hKV1
  have hoeD : dirGet OP.dir_data p.old_name = some ⟨p.old_name, aA⟩ := hoe
  have henD : dirGet NP.dir_data p.new_name = some ⟨p.new_name, aB⟩ := hen
  have hOP2 : kvGet KV1 p.old_parent = some OP1 := by
    rw [hKV1, kvGet_kvSet_ne _ _ _ _ hpp, kvGet_kvSet_self]
  have hNP2 : kvGet KV1 p.new_parent = some NP1 := by
    rw [hKV1, kvGet_kvSet_self]
  have hA2 : kvGet KV1 aB.ino = some B1 := by
    rw [hKV1, kvGet_kvSet_ne _ _ _ _ hBnp, kvGet_kvSet_ne _ _ _ _ hBop, kvGet_kvSet_self]
  have hB2 : kvGet KV1 aA.ino = some A1 := by
    rw [hKV1, kvGet_kvSet_ne _ _ _ _ hAnp, kvGet_kvSet_ne _ _ _ _ hAop,
      kvGet_kvSet_ne _ _ _ _ hino, kvGet_kvSet_self]
  have hOP1dir : OP1.get_type = .S_IFDIR := hOPdir
  have hNP1dir : NP1.get_type = .S_IFDIR := hNPdir
  have hoe2 : OP1.get_entry p.old_name = some ⟨p.old_name, aB⟩ := by
    show dirGet (dirInsert (dirRemove OP.dir_data p.old_name) p.old_name ⟨p.old_name, aB⟩)
      p.old_name = some ⟨p.old_name, aB⟩
    rw [dirGet_dirInsert_self]
  have hen2 : NP1.get_entry p.new_name = some ⟨p.new_name, aA⟩ := by
    show dirGet (dirInsert (dirRemove NP.dir_data p.new_name) p.new_name ⟨p.new_name, aA⟩)
      p.new_name = some ⟨p.new_name, aA⟩
    rw [dirGet_dirInsert_self]
  have hs1b : check_sticky_bit ncp ctx OP1 ⟨p.old_name, aB⟩ = .ok () := by
    rw [check_sticky_bit_attr_congr ncp ctx OP1 OP _ rfl]
    exact hs3
  have hs2b : check_sticky_bit ncp ctx NP1 ⟨p.new_name, aA⟩ = .ok () := by
    rw [check_sticky_bit_attr_congr ncp ctx NP1 NP _ rfl]
    exact hs4
  rw [rename_exchange_spec_diff ncp ctx KV1 p OP1 NP1 B1 A1 aB aA hflags hpp hOP2 hOP1dir
    hNP2 hNP1dir hoe2 hen2 hs1b hs2b (Ne.symm hino) hA2 hB2]
  have hdirOP : dirInsert (dirRemove (dirInsert (dirRemove OP.dir_data p.old_name) p.old_name
      ⟨p.old_name, aB⟩) p.old_name) p.old_name ⟨p.old_name, aA⟩ = OP.dir_data := by
    apply dir_ext
    · exact sorted_dirInsert _ _ _ (sorted_dirRemove _ _
        (sorted_dirInsert _ _ _ (sorted_dirRemove _ _ hOPs)))
    · exact hOPs
    · intro k
      by_cases hk : k = p.old_name
      · subst hk
        rw [dirGet_dirInsert_self, hoeD]
      · rw [dirGet_dirInsert_ne _ _ _ _ hk, dirGet_dirRemove_ne _ _ _ hk,
          dirGet_dirInsert_ne _ _ _ _ hk, dirGet_dirRemove_ne _ _ _ hk]
  have hdirNP : dirInsert (dirRemove (dirInsert (dirRemove NP.dir_data p.new_name) p.new_name
      ⟨p.new_name, aA⟩) p.new_name) p.new_name ⟨p.new_name, aB⟩ = NP.dir_data := by
    apply dir_ext
    · exact sorted_dirInsert _ _ _ (sorted_dirRemove _ _
        (sorted_dirInsert _ _ _ (sorted_dirRemove _ _ hNPs)))
    · exact hNPs
    · intro k
      by_cases hk : k = p.new_name
      · subst hk
        rw [dirGet_dirInsert_self, henD]
      · rw [dirGet_dirInsert_ne _ _ _ _ hk, dirGet_dirRemove_ne _ _ _ hk,
          dirGet_dirInsert_ne _ _ _ _ hk, dirGet_dirRemove_ne _ _ _ hk]
  refine congrArg Except.ok ?_
  funext i
  simp only [kvSet]
  by_cases h1 : i = p.new_parent
  · rw [if_pos h1]
    rw [h1]
    exact (congrArg some (node_set_dir_self NP _ hdirNP)).trans hNP.symm
  · rw [if_neg h1]
    by_cases h2 : i = p.old_parent
    · rw [if_pos h2]
      rw [h2]
      exact (congrArg some (node_set_dir_self OP _ hdirOP)).trans hOP.symm
    · rw [if_neg h2]
      by_cases h3 : i = aA.ino
      · rw [if_pos h3]
        rw [h3]
        exact (congrArg some
          (node_set_parent_name_self A p.old_parent p.old_name hApar hAname)).trans hA.symm
      · rw [if_neg h3]
        by_cases h4 : i = aB.ino
        · rw [if_pos h4]
          rw [h4]
          exact (congrArg some
            (node_set_parent_name_self B p.new_parent p.new_name hBpar hBname)).trans hB.symm
        · rw [if_neg h4]
          rw [hKV1]
          simp only [kvSet]
          rw [if_neg h1, if_neg h2, if_neg h4, if_neg h3]

/-- Exchange rename applied twice with the same arguments, one parent
directory: the store returns to its initial value. -/
theorem rename_exchange_twice_same (ncp : Bool) (ctx : ReqContext) (kv : KV) (p : RenameParam)
    (OP A B : Node) (aA aB : FileAttr)
    (hflags : p.flags ≠ 1) (hpp : p.old_parent = p.new_parent)
    (honame : p.old_name ≠ p.new_name)
    (hOP : kvGet kv p.old_parent = some OP) (hOPdir : OP.get_type = .S_IFDIR)
    (hOPs : DirSorted OP.dir_data)
    (hoe : OP.get_entry p.old_name = some ⟨p.old_name, aA⟩)
    (hen : OP.get_entry p.new_name = some ⟨p.new_name, aB⟩)
    (hs1 : check_sticky_bit ncp ctx OP ⟨p.old_name, aA⟩ = .ok ())
    (hs2 : check_sticky_bit ncp ctx OP ⟨p.new_name, aB⟩ = .ok ())
    (hs3 : check_sticky_bit ncp ctx OP ⟨p.old_name, aB⟩ = .ok ())
    (hs4 : check_sticky_bit ncp ctx OP ⟨p.new_name, aA⟩ = .ok ())
    (hino : aA.ino ≠ aB.ino)
    (hA : kvGet kv aA.ino = some A) (hB : kvGet kv aB.ino = some B)
    (hApar : A.parent_ino = p.old_parent) (hAname : A.name = p.old_name)
    (hBpar : B.parent_ino = p.new_parent) (hBname : B.name = p.new_name)
    (hAop : aA.ino ≠ p.old_parent) (hBop : aB.ino ≠ p.old_parent) :
    Except.bind (rename_exchange_helper ncp ctx kv p)
      (fun kv1 => rename_exchange_helper ncp ctx kv1 p) = .ok kv := by
  rw [rename_exchange_spec_same ncp ctx kv p OP A B aA aB hflags hpp honame hOP hOPdir
    hoe hen hs1 hs2 hino hA hB]
  simp only [Except.bind]
  set A1 : Node := { A with parent_ino := p.new_parent, name := p.new_name } with hA1
  set B1 : Node := { B with parent_ino := p.old_parent, name := p.old_name } with hB1
  set OP1 : Node :=
    { OP with dir_data :=
        dirInsert (dirInsert (dirRemove (dirRemove OP.dir_data p.old_name) p.new_name)
          p.old_name ⟨p.old_name, aB⟩) p.new_name ⟨p.new_name, aA⟩ } with hOP1
  set KV1 : KV := kvSet (kvSet (kvSet kv aA.ino A1) aB.ino B1) p.old_parent OP1 with hKV1
  have hoeD : dirGet OP.dir_data p.old_name = some ⟨p.old_name, aA⟩ := hoe
  have henD : dirGet OP.dir_data p.new_name = some ⟨p.new_name, aB⟩ := hen
  have hOP2 : kvGet KV1 p.old_parent = some OP1 := by
    rw [hKV1, kvGet_kvSet_self]
  have hA2 : kvGet KV1 aB.ino = some B1 := by
    rw [hKV1, kvGet_kvSet_ne _ _ _ _ hBop, kvGet_kvSet_self]
  have hB2 : kvGet KV1 aA.ino = some A1 := by
    rw [hKV1, kvGet_kvSet_ne _ _ _ _ hAop, kvGet_kvSet_ne _ _ _ _ hino, kvGet_kvSet_self]
  have hOP1dir : OP1.get_type = .S_IFDIR := hOPdir
  have hoe2 : OP1.get_entry p.old_name = some ⟨p.old_name, aB⟩ := by
    show dirGet (dirInsert (dirInsert (dirRemove (dirRemove OP.dir_data p.old_name) p.new_name)
      p.old_name ⟨p.old_name, aB⟩) p.new_name ⟨p.new_name, aA⟩) p.old_name =
      some ⟨p.old_name, aB⟩
    rw [dirGet_dirInsert_ne _ _ _ _ honame, dirGet_dirInsert_self]
  have hen2 : OP1.get_entry p.new_name = some ⟨p.new_name, aA⟩ := by
    show dirGet (dirInsert (dirInsert (dirRemove (dirRemove OP.dir_data p.old_name) p.new_name)
      p.old_name ⟨p.old_name, aB⟩) p.new_name ⟨p.new_name, aA⟩) p.new_name =
      some ⟨p.new_name, aA⟩
    rw [dirGet_dirInsert_self]
  have hs1b : check_sticky_bit ncp ctx OP1 ⟨p.old_name, aB⟩ = .ok () := by
    rw [check_sticky_bit_attr_congr ncp ctx OP1 OP _ rfl]
    exact hs3
  have hs2b : check_sticky_bit ncp ctx OP1 ⟨p.new_name, aA⟩ = .ok () := by
    rw [check_sticky_bit_attr_congr ncp ctx OP1 OP _ rfl]
    exact hs4
  rw [rename_exchange_spec_same ncp ctx KV1 p OP1 B1 A1 aB aA hflags hpp honame hOP2 hOP1dir
    hoe2 hen2 hs1b hs2b (Ne.symm hino) hA2 hB2]
  have hdirOP : dirInsert (dirInsert (dirRemove (dirRemove
      (dirInsert (dirInsert (dirRemove (dirRemove OP.dir_data p.old_name) p.new_name)
        p.old_name ⟨p.old_name, aB⟩) p.new_name ⟨p.new_name, aA⟩) p.old_name) p.new_name)
      p.old_name ⟨p.old_name, aA⟩) p.new_name ⟨p.new_name, aB⟩ = OP.dir_data := by
    apply dir_ext
    · exact sorted_dirInsert _ _ _ (sorted_dirInsert _ _ _ (sorted_dirRemove _ _
        (sorted_dirRemove _ _ (sorted_dirInsert _ _ _ (sorted_dirInsert _ _ _
          (sorted_dirRemove _ _ (sorted_dirRemove _ _ hOPs)))))))
    · exact hOPs
    · intro k
      by_cases hk1 : k = p.new_name
      · subst hk1
        rw [dirGet_dirInsert_self, henD]
      · by_cases hk2 : k = p.old_name
        · subst hk2
          rw [dirGet_dirInsert_ne _ _ _ _ honame, dirGet_dirInsert_self, hoeD]
        · rw [dirGet_dirInsert_ne _ _ _ _ hk1, dirGet_dirInsert_ne _ _ _ _ hk2,
            dirGet_dirRemove_ne _ _ _ hk1, dirGet_dirRemove_ne _ _ _ hk2,
            dirGet_dirInsert_ne _ _ _ _ hk1, dirGet_dirInsert_ne _ _ _ _ hk2,
            dirGet_dirRemove_ne _ _ _ hk1, dirGet_dirRemove_ne _ _ _ hk2]
  refine congrArg Except.ok ?_
  funext i
  simp only [kvSet]
  by_cases h2 : i = p.old_parent
  · rw [if_pos h2]
    rw [h2]
    exact (congrArg some (node_set_dir_self OP _ hdirOP)).trans hOP.symm
  · rw [if_neg h2]
    by_cases h3 : i = aA.ino
    · rw [if_pos h3]
      rw [h3]
      exact (congrArg some
        (node_set_parent_name_self A p.old_parent p.old_name hApar hAname)).trans hA.symm
    · rw [if_neg h3]
      by_cases h4 : i = aB.ino
      · rw [if_pos h4]
        rw [h4]
        have hBpar2 : B.parent_ino = p.new_parent := hBpar
        exact (congrArg some
          (node_set_parent_name_self B p.new_parent p.new_name hBpar2 hBname)).trans hB.symm
      · rw [if_neg h4]
        rw [hKV1]
        simp only [kvSet]
        rw [if_neg h2, if_neg h4, if_neg h3]

/-- C6: exchange rename is its own inverse: on every filesystem state in which
both entries exist, the pre-checks pass, and the state is consistent (each
swapped inode's record carries the parent/name under which it is listed, the
directory maps are well-formed `BTreeMap` entry lists, and the four involved
keys are distinct), running `rename_exchange_helper` twice with the same
arguments returns every inode record and both parents' entry maps to their
initial values. -/
theorem rename_exchange_involution (ncp : Bool) (ctx : ReqContext) (kv : KV) (p : RenameParam)
    (OP NP A B : Node) (aA aB : FileAttr)
    (hflags : p.flags ≠ 1)
    (hOP : kvGet kv p.old_parent = some OP) (hOPdir : OP.get_type = .S_IFDIR)
    (hNP : kvGet kv p.new_parent = some NP) (hNPdir : NP.get_type = .S_IFDIR)
    (hOPs : DirSorted OP.dir_data) (hNPs : DirSorted NP.dir_data)
    (hoe : OP.get_entry p.old_name = some ⟨p.old_name, aA⟩)
    (hen : NP.get_entry p.new_name = some ⟨p.new_name, aB⟩)
    (hs1 : check_sticky_bit ncp ctx OP ⟨p.old_name, aA⟩ = .ok ())
    (hs2 : check_sticky_bit ncp ctx NP ⟨p.new_name, aB⟩ = .ok ())
    (hs3 : check_sticky_bit ncp ctx OP ⟨p.old_name, aB⟩ = .ok ())
    (hs4 : check_sticky_bit ncp ctx NP ⟨p.new_name, aA⟩ = .ok ())
    (hino : aA.ino ≠ aB.ino)
    (hA : kvGet kv aA.ino = some A) (hB : kvGet kv aB.ino = some B)
    (hApar : A.parent_ino = p.old_parent) (hAname : A.name = p.old_name)
    (hBpar : B.parent_ino = p.new_parent) (hBname : B.name = p.new_name)
    (hAop : aA.ino ≠ p.old_parent) (hAnp : aA.ino ≠ p.new_parent)
    (hBop : aB.ino ≠ p.old_parent) (hBnp : aB.ino ≠ p.new_parent) :
    Except.bind (rename_exchange_helper ncp ctx kv p)
      (fun kv1 => rename_exchange_helper ncp ctx kv1 p) = .ok kv := by
  by_cases hpp : p.old_parent = p.new_parent
  · have hNPOP : NP = OP := by
      rw [← hpp] at hNP
      rw [hOP] at hNP
      exact (Option.some.inj hNP).symm
    have henO : OP.get_entry p.new_name = some ⟨p.new_name, aB⟩ := hNPOP ▸ hen
    have hs2O : check_sticky_bit ncp ctx OP ⟨p.new_name, aB⟩ = .ok () := hNPOP ▸ hs2
    have hs4O : check_sticky_bit ncp ctx OP ⟨p.new_name, aA⟩ = .ok () := hNPOP ▸ hs4
    have honame : p.old_name ≠ p.new_name := by
      intro heq
      rw [← heq] at henO
      rw [hoe] at henO
      have hae := Option.some.inj henO
      injection hae with h1 h2
      exact hino (by rw [h2])
    exact rename_exchange_twice_same ncp ctx kv p OP A B aA aB hflags hpp honame hOP hOPdir
      hOPs hoe henO hs1 hs2O hs3 hs4O hino hA hB hApar hAname hBpar hBname hAop hBop
  · exact rename_exchange_twice_diff ncp ctx kv p OP NP A B aA aB hflags hpp hOP hOPdir hNP
      hNPdir hOPs hNPs hoe hen hs1 hs2 hs3 hs4 hino hA hB hApar hAname hBpar hBname
      hAop hAnp hBop hBnp

/-- C6 witness: the involution theorem evaluated on two directories `d1` (ino
11, entry `"x"` for ino 4) and `d2` (ino 12, entry `"y"` for ino 5). -/
theorem rename_exchange_involution_witness :
    Except.bind (rename_exchange_helper true ⟨0, 0⟩ kvC6 paramC6)
      (fun kv1 => rename_exchange_helper true ⟨0, 0⟩ kv1 paramC6) = .ok kvC6 :=
  rename_exchange_involution true ⟨0, 0⟩ kvC6 paramC6 d1C6 d2C6 xC6 yC6 attrXC6 attrYC6
    (by decide) rfl (by decide) rfl (by decide) (by decide) (by decide)
    (by decide) (by decide) (by decide) (by decide) (by decide) (by decide)
    (by decide) rfl rfl (by decide) (by decide) (by decide) (by decide)
    (by decide) (by decide) (by decide) (by decide)

/-- C10 witness: the no-op theorem evaluated on a directory whose old and new
entries pick out the same inode. -/
theorem rename_exchange_same_ino_noop_witness :
    rename_exchange_helper true ⟨0, 0⟩ kvC10 paramC10 = .ok kvC10 :=
  rename_exchange_same_ino_noop true ⟨0, 0⟩ kvC10 paramC10 dirC10 dirC10
    ⟨"x", attrXC10⟩ ⟨"x", attrXC10⟩ (by decide) rfl (by decide) rfl (by decide)
    (by decide) (by decide) (by decide) (by decide) rfl

end S3FS
